import Mathlib

/-!
Verification development for the release-automation task runner (`tasks.py`).

The file embeds the pure content of the tasks shallowly:
* file contents are ordered lists of lines (each line keeps its trailing
  newline, as Python's `readlines` produces them);
* the external `semver` library is modelled from the spec's semantic-version
  grammar (`major.minor.patch[-prerelease][+build]`);
* side-effecting steps (console output, process exit, working-directory
  changes, git commands) are modelled as explicit data returned by the
  corresponding functions.
-/

namespace Tasks

/-! ### String helpers mirroring the Python primitives -/

/-- Substring test on character lists: models Python's `needle in haystack`. -/
def strIn (needle : List Char) : List Char → Bool
  | [] => needle.isEmpty
  | c :: t => needle.isPrefixOf (c :: t) || strIn needle t

/-- Python whitespace characters (the ASCII ones recognised by `str.isspace`). -/
def pySpaceChar (c : Char) : Bool :=
  c = ' ' || c = '\t' || c = '\n' || c = '\r' || c = '\x0b' || c = '\x0c'

/-- Python's `str.isspace`: non-empty and every character is whitespace. -/
def pyIsSpace (s : String) : Bool :=
  !s.isEmpty && s.toList.all pySpaceChar

/-- Python's `str.startswith`, as a character-list prefix test. -/
def pyStartsWith (s p : String) : Bool :=
  p.toList.isPrefixOf s.toList

/-! ### Model of the external `semver` library

Modelled from the spec: the repository imports the `semver` package
(`parse_version_info`, `bump_patch`), which is not part of the repository's
source.  The spec describes a semantic version as
`major.minor.patch[-prerelease][+build]` with the usual semantic-versioning
grammar: numeric components without leading zeros, dot-separated
prerelease identifiers (numeric ones without leading zeros, alphanumeric
ones over `[0-9A-Za-z-]`), dot-separated non-empty build identifiers over
`[0-9A-Za-z-]`.  The parsed value keeps each component; rendering
concatenates them back in canonical form. -/

structure VersionInfo where
  major : List Char
  minor : List Char
  patch : List Char
  prerelease : Option (List Char)
  build : Option (List Char)
deriving DecidableEq, Repr

/-- Parse a numeric identifier (digits, no leading zero) from the front. -/
def parseNumId (cs : List Char) : Option (List Char × List Char) :=
  let ds := cs.takeWhile Char.isDigit
  let rest := cs.dropWhile Char.isDigit
  if ds.isEmpty then none
  else if ds.head? = some '0' ∧ ds.length ≠ 1 then none
  else some (ds, rest)

/-- One prerelease identifier: non-empty, over `[0-9A-Za-z-]`, and if purely
numeric then without a leading zero. -/
def preIdOk (p : List Char) : Bool :=
  !p.isEmpty && p.all (fun c => c.isAlphanum || c = '-') &&
    (if p.all Char.isDigit then !(p.head? = some '0' ∧ p.length ≠ 1) else true)

/-- The prerelease section: dot-separated identifiers, each `preIdOk`. -/
def checkPrerelease (p : List Char) : Bool :=
  (p.splitOn '.').all preIdOk

/-- One build identifier: non-empty, over `[0-9A-Za-z-]`. -/
def buildIdOk (b : List Char) : Bool :=
  !b.isEmpty && b.all (fun c => c.isAlphanum || c = '-')

/-- The build section: dot-separated identifiers, each `buildIdOk`. -/
def checkBuild (b : List Char) : Bool :=
  (b.splitOn '.').all buildIdOk

/-- Parse the optional `-prerelease` and `+build` tail of a version. -/
def parseTail (maj mino pat : List Char) (r : List Char) : Option VersionInfo :=
  match r with
  | [] => some ⟨maj, mino, pat, none, none⟩
  | c :: rest =>
    if c = '+' then
      if checkBuild rest then some ⟨maj, mino, pat, none, some rest⟩ else none
    else if c = '-' then
      let pre := rest.takeWhile (fun x => x ≠ '+')
      let rest2 := rest.dropWhile (fun x => x ≠ '+')
      if checkPrerelease pre then
        match rest2 with
        | [] => some ⟨maj, mino, pat, some pre, none⟩
        | c2 :: b =>
          if c2 = '+' then
            if checkBuild b then some ⟨maj, mino, pat, some pre, some b⟩ else none
          else none
      else none
    else none

/-- Parse a full semantic version from a character list. -/
def parseVChars (cs : List Char) : Option VersionInfo :=
  match parseNumId cs with
  | none => none
  | some (maj, r1) =>
    match r1 with
    | [] => none
    | c1 :: r1' =>
      if c1 = '.' then
        match parseNumId r1' with
        | none => none
        | some (mino, r2) =>
          match r2 with
          | [] => none
          | c2 :: r2' =>
            if c2 = '.' then
              match parseNumId r2' with
              | none => none
              | some (pat, r3) => parseTail maj mino pat r3
            else none
      else none

/-- Modelled from the spec: `semver.parse_version_info`. -/
def parse_version_info (s : String) : Option VersionInfo :=
  parseVChars s.toList

/-- Rendering of the `-prerelease` / `+build` tail of a parsed version. -/
def renderTail (i : VersionInfo) : List Char :=
  (match i.prerelease with
   | some p => '-' :: p
   | none => []) ++
  (match i.build with
   | some b => '+' :: b
   | none => [])

/-- Canonical character rendering of a parsed version. -/
def renderChars (i : VersionInfo) : List Char :=
  i.major ++ '.' :: (i.minor ++ '.' :: (i.patch ++ renderTail i))

/-- Canonical string rendering of a parsed version (`str(VersionInfo)`). -/
def renderVersion (i : VersionInfo) : String :=
  String.mk (renderChars i)

/-- `normalize_version` from `tasks.py`: parse, then render canonically.
`none` models the `InvalidVersionError` raised on a malformed string. -/
def normalize_version (version : String) : Option String :=
  (parse_version_info version).map renderVersion

/-- Decimal digit character for a value below ten. -/
def digitChar (n : Nat) : Char :=
  match n with
  | 0 => '0' | 1 => '1' | 2 => '2' | 3 => '3' | 4 => '4'
  | 5 => '5' | 6 => '6' | 7 => '7' | 8 => '8' | _ => '9'

/-- Decimal rendering of a natural number, most significant digit first.
The fuel argument (any strict upper bound of the number) makes the
recursion structural, so the function reduces inside the kernel. -/
def natDigitsAux (fuel n : Nat) : List Char :=
  match fuel with
  | 0 => []
  | f + 1 =>
    if n < 10 then [digitChar n]
    else natDigitsAux f (n / 10) ++ [digitChar (n % 10)]

/-- Decimal rendering of a natural number. -/
def natDigits (n : Nat) : List Char := natDigitsAux (n + 1) n

/-- Numeric value of a digit string (how Python's `int` reads it). -/
def digitsToNat (ds : List Char) : Nat :=
  ds.foldl (fun n c => 10 * n + (c.toNat - 48)) 0

/-- Modelled from the spec: `semver.bump_patch` — increment the patch
component and drop any prerelease/build metadata. -/
def bump_patch (version : String) : Option String :=
  (parse_version_info version).map (fun i =>
    String.mk (i.major ++ '.' :: (i.minor ++ '.' :: natDigits (digitsToNat i.patch + 1))))

/-! ### The metadata writers of `tasks.py`

File contents are lists of lines with trailing newlines kept, exactly as
`readlines` yields them.  Each writer returns the rewritten content;
`none` models an exception raised before any write happens
(`InvalidVersionError` from normalization, or `ValueError` from
`list.index` when no line matches). -/

/-- `VERSION_TEMPLATE` rendered with a version string. -/
def VERSION_TEMPLATE (version_string : String) : String :=
  "__version__ = \"" ++ version_string ++ "\"\n"

/-- `TEST_VERSION_TEMPLATE` rendered with a version string. -/
def TEST_VERSION_TEMPLATE (version_string : String) : String :=
  "from dash_bootstrap_components import __version__\n\n\ndef test_version():\n    assert __version__ == \"" ++ version_string ++ "\"\n"

/-- The marker of `set_pyversion`: `line.startswith("__version__ = ")`. -/
def pyMarker (line : String) : Bool :=
  pyStartsWith line "__version__ = "

/-- The marker of `set_jsversion`: `'"version"' in line`. -/
def jsMarker (line : String) : Bool :=
  strIn "\"version\"".toList line.toList

/-- The replacement line written by `set_jsversion`. -/
def jsVersionLine (version : String) : String :=
  "  \"version\": \"" ++ version ++ "\",\n"

/-- The marker of `set_documentation_version`: `"dash_bootstrap_components" in line`. -/
def docMarker (line : String) : Bool :=
  strIn "dash_bootstrap_components".toList line.toList

/-- The replacement line written by `set_documentation_version`. -/
def docVersionLine (version : String) : String :=
  "dash_bootstrap_components==" ++ version ++ "\n"

/-- `set_pyversion`: normalize, find the first `__version__ = ` line
(raising if there is none), replace it, and also produce the generated
test fixture.  Returns the new `__init__.py` lines and the fixture text. -/
def set_pyversion (version : String) (initLines : List String) :
    Option (List String × String) :=
  match normalize_version version with
  | none => none
  | some v =>
    match initLines.findIdx? pyMarker with
    | none => none
    | some index =>
      some (initLines.set index (VERSION_TEMPLATE v), TEST_VERSION_TEMPLATE v)

/-- `set_jsversion`: normalize, then replace every line containing
`"version"` by the rendered version line. -/
def set_jsversion (version : String) (packageJson : List String) :
    Option (List String) :=
  match normalize_version version with
  | none => none
  | some v =>
    some (packageJson.map (fun line =>
      if jsMarker line then jsVersionLine v else line))

/-- `set_documentation_version`: normalize, then replace every line
containing the package-name substring by the rendered pin line. -/
def set_documentation_version (version : String) (docsRequirements : List String) :
    Option (List String) :=
  match normalize_version version with
  | none => none
  | some v =>
    some (docsRequirements.map (fun line =>
      if docMarker line then docVersionLine v else line))

/-! ### Release-notes collection -/

/-- `non_commented_lines` in `get_release_notes`: the edited lines that do
not begin with the comment marker `#`. -/
def non_commented (editedLines : List String) : List String :=
  editedLines.filter (fun line => !pyStartsWith line "#")

/-- `changelog` in `get_release_notes`: the concatenation (`"".join`) of
the non-comment lines, as a character list. -/
def changelogChars (editedLines : List String) : List Char :=
  ((non_commented editedLines).map String.toList).flatten

/-- `get_release_notes`, applied to the lines read back from the editing
session.  Outer `none` models an exception (`InvalidVersionError`, or the
`IndexError` of `non_commented_lines[-1]` on an empty list); `some none`
models the Python `None` return ("no notes"); `some (some ls)` the
returned line sequence. -/
def get_release_notes (version : String) (editedLines : List String) :
    Option (Option (List String)) :=
  match normalize_version version with
  | none => none
  | some v =>
    if strIn v.toList (changelogChars editedLines) then
      match (non_commented editedLines).getLast? with
      | none => none
      | some last =>
        if !pyIsSpace last then some (some (non_commented editedLines ++ ["\n"]))
        else some (some (non_commented editedLines))
    else
      some none

/-! ### The command runner -/

/-- Exit code and captured streams of one external command. -/
structure CommandResult where
  exited : Int
  stdout : String
  stderr : String
deriving DecidableEq, Repr

/-- What a call to `run` does to the console and the process. -/
structure RunOutcome where
  output : List String
  exitCode : Option Int
deriving DecidableEq, Repr

/-- `run`: on exit code `0` return silently; otherwise print the error
label, the captured stdout, a blank line, the captured stderr, and
terminate the process with the command's exit code. -/
def run (command : String) (result : CommandResult) : RunOutcome :=
  if result.exited = 0 then ⟨[], none⟩
  else ⟨["Error running " ++ command, result.stdout, "", result.stderr],
        some result.exited⟩

/-! ### `build_js` and the working directory -/

/-- `JS_DIR = HERE` in `tasks.py`. -/
def jsDir (here : String) : String := here

/-- Final working directory and exit behaviour of `build_js`. -/
structure BuildJsResult where
  finalCwd : String
  exitCode : Option Int
deriving DecidableEq, Repr

/-- `build_js`: `os.chdir(JS_DIR)`, run `npm install` then `npm publish`
(each fatal on failure via `run`), and in the `finally` block
`os.chdir(HERE)` — which runs before the process exits even when a
command failed.  `here` is `HERE` (the directory of `tasks.py`), `cwd0`
the working directory the process was in when `build_js` started. -/
def build_js (here : String) (cwd0 : String)
    (npmInstall npmPublish : CommandResult) : BuildJsResult :=
  let _cwdInside := jsDir here
  match (run "npm install" npmInstall).exitCode with
  | some n => { finalCwd := here, exitCode := some n }
  | none =>
    match (run "npm publish" npmPublish).exitCode with
    | some n => { finalCwd := here, exitCode := some n }
    | none => { finalCwd := here, exitCode := none }

/-! ### The `release` workflow after notes collection -/

/-- One observable step of the `release` task. -/
inductive Action where
  | infoMsg (msg : String)
  | errorMsg (msg : String)
  | writeFile (name : String) (content : List String)
  | buildPublish (version : String)
  | gitCommand (cmd : String)
deriving DecidableEq, Repr

/-- The tail of the `release` task from the point where
`get_release_notes` has produced its result: on `None`, report the error
and call the bare `exit()` (process status `0`); otherwise write the
changelog scratch file, build and publish, and run the git commands. -/
def release_after_notes (version : String) (notes : Option (List String)) :
    List Action × Option Int :=
  match notes with
  | none => ([Action.errorMsg "No release notes: exiting"], some 0)
  | some release_notes_lines =>
    ([Action.infoMsg "Writing release notes to changelog.tmp",
      Action.writeFile "changelog.tmp" release_notes_lines,
      Action.buildPublish version,
      Action.infoMsg "Committing version changes",
      Action.gitCommand ("git checkout -b release-" ++ version),
      Action.gitCommand ("git add package.json package-lock.json docs/requirements.txt dash_bootstrap_components/_version.py"),
      Action.gitCommand ("git commit -m \"Bump version to " ++ version ++ "\""),
      Action.infoMsg ("Tagging version " ++ version ++ " and pushing to GitHub"),
      Action.gitCommand ("git tag -a \"" ++ version ++ "\" -F changelog.tmp"),
      Action.gitCommand ("git push origin release-" ++ version ++ " --tags")],
     none)

/-! ### The `postrelease` version computation -/

/-- The `new_version` computed by `postrelease`:
`semver.bump_patch(version) + "-dev"`. -/
def postrelease_new_version (version : String) : Option String :=
  (bump_patch version).map (fun b => b ++ "-dev")

/-- The manifest rewrites performed by `postrelease`: compute the next
development version, then apply `set_pyversion` and `set_jsversion`. -/
def postrelease_manifests (version : String)
    (initLines packageJson : List String) :
    Option (List String × List String) :=
  match postrelease_new_version version with
  | none => none
  | some nv =>
    match set_pyversion nv initLines with
    | none => none
    | some (newInit, _fixture) =>
      match set_jsversion nv packageJson with
      | none => none
      | some newPkg => some (newInit, newPkg)

/-! ### Helper lemmas on lists -/

theorem findIdx?_eq_none_of_all_false {α : Type} (p : α → Bool) :
    ∀ (l : List α) (i : Nat), (∀ x ∈ l, p x = false) → List.findIdx? p l i = none := by
  intro l
  induction l with
  | nil => intro i _; simp
  | cons a t ih =>
    intro i h
    rw [List.findIdx?_cons, h a (by simp)]
    simpa using ih (i + 1) (fun x hx => h x (by simp [hx]))

theorem findIdx?_append_cons {α : Type} (p : α → Bool) (l : α) (hl : p l = true) :
    ∀ (pre : List α) (post : List α) (i : Nat), (∀ x ∈ pre, p x = false) →
      List.findIdx? p (pre ++ l :: post) i = some (i + pre.length) := by
  intro pre
  induction pre with
  | nil => intro post i _; simp [List.findIdx?_cons, hl]
  | cons a t ih =>
    intro post i h
    rw [List.cons_append, List.findIdx?_cons, h a (by simp)]
    simp only [Bool.false_eq_true, if_false]
    rw [ih post (i + 1) (fun x hx => h x (by simp [hx]))]
    congr 1
    simp
    omega

theorem set_append_cons {α : Type} (new : α) :
    ∀ (pre : List α) (l : α) (post : List α),
      (pre ++ l :: post).set pre.length new = pre ++ new :: post := by
  intro pre
  induction pre with
  | nil => intro l post; rfl
  | cons a t ih => intro l post; simp [ih]

theorem map_if_id {α : Type} (p : α → Bool) (rep : α) :
    ∀ (l : List α), (∀ x ∈ l, p x = false) →
      l.map (fun x => if p x then rep else x) = l := by
  intro l
  induction l with
  | nil => intro _; rfl
  | cons a t ih =>
    intro h
    simp only [List.map_cons, h a (by simp), Bool.false_eq_true, if_false]
    rw [ih (fun x hx => h x (by simp [hx]))]

theorem map_if_replace_frame {α : Type} (p : α → Bool) (rep : α)
    (pre post : List α) (l : α) (hl : p l = true)
    (hpre : ∀ x ∈ pre, p x = false) (hpost : ∀ x ∈ post, p x = false) :
    (pre ++ l :: post).map (fun x => if p x then rep else x) = pre ++ rep :: post := by
  rw [List.map_append, List.map_cons, hl, if_pos rfl, map_if_id p rep pre hpre,
    map_if_id p rep post hpost]

theorem set_pyversion_frame (version v : String)
    (hv : normalize_version version = some v)
    (pre post : List String) (l : String) (hl : pyMarker l = true)
    (hpre : ∀ x ∈ pre, pyMarker x = false) :
    set_pyversion version (pre ++ l :: post) =
      some (pre ++ VERSION_TEMPLATE v :: post, TEST_VERSION_TEMPLATE v) := by
  simp only [set_pyversion, hv, findIdx?_append_cons pyMarker l hl pre post 0 hpre,
    Nat.zero_add, set_append_cons]

theorem set_jsversion_frame (version v : String)
    (hv : normalize_version version = some v)
    (pre post : List String) (l : String) (hl : jsMarker l = true)
    (hpre : ∀ x ∈ pre, jsMarker x = false)
    (hpost : ∀ x ∈ post, jsMarker x = false) :
    set_jsversion version (pre ++ l :: post) =
      some (pre ++ jsVersionLine v :: post) := by
  simp only [set_jsversion, hv,
    map_if_replace_frame jsMarker (jsVersionLine v) pre post l hl hpre hpost]

theorem set_documentation_version_frame (version v : String)
    (hv : normalize_version version = some v)
    (pre post : List String) (l : String) (hl : docMarker l = true)
    (hpre : ∀ x ∈ pre, docMarker x = false)
    (hpost : ∀ x ∈ post, docMarker x = false) :
    set_documentation_version version (pre ++ l :: post) =
      some (pre ++ docVersionLine v :: post) := by
  simp only [set_documentation_version, hv,
    map_if_replace_frame docMarker (docVersionLine v) pre post l hl hpre hpost]

/-! ### Soundness of the version parser: parsing is render-faithful -/

/-- A well-formed numeric identifier: non-empty digits, no leading zero. -/
def validNumId (ds : List Char) : Prop :=
  ds ≠ [] ∧ (∀ x ∈ ds, Char.isDigit x = true) ∧
    ¬(ds.head? = some '0' ∧ ds.length ≠ 1)

theorem parseNumId_sound (cs ds rest : List Char)
    (h : parseNumId cs = some (ds, rest)) :
    ds ++ rest = cs ∧ ds ≠ [] ∧ (∀ x ∈ ds, Char.isDigit x = true) ∧
      ¬(ds.head? = some '0' ∧ ds.length ≠ 1) := by
  simp only [parseNumId] at h
  by_cases h1 : (cs.takeWhile Char.isDigit).isEmpty = true
  · rw [if_pos h1] at h
    exact absurd h (by simp)
  · rw [if_neg h1] at h
    by_cases h2 : (cs.takeWhile Char.isDigit).head? = some '0' ∧
        (cs.takeWhile Char.isDigit).length ≠ 1
    · rw [if_pos h2] at h
      exact absurd h (by simp)
    · rw [if_neg h2] at h
      simp only [Option.some.injEq, Prod.mk.injEq] at h
      obtain ⟨hds, hrest⟩ := h
      subst hds
      subst hrest
      refine ⟨List.takeWhile_append_dropWhile _ _, ?_, ?_, h2⟩
      · intro hnil
        rw [← List.isEmpty_iff] at hnil
        exact h1 hnil
      · intro x hx
        exact List.mem_takeWhile_imp hx

theorem parseTail_sound (maj mino pat r : List Char) (i : VersionInfo)
    (h : parseTail maj mino pat r = some i) :
    i.major = maj ∧ i.minor = mino ∧ i.patch = pat ∧ renderTail i = r := by
  cases r with
  | nil =>
    simp only [parseTail, Option.some.injEq] at h
    subst h
    exact ⟨rfl, rfl, rfl, rfl⟩
  | cons c rest =>
    simp only [parseTail] at h
    by_cases hplus : c = '+'
    · rw [if_pos hplus] at h
      by_cases hcb : checkBuild rest = true
      · rw [if_pos hcb] at h
        simp only [Option.some.injEq] at h
        subst h
        refine ⟨rfl, rfl, rfl, ?_⟩
        simp only [renderTail]
        rw [hplus]
        rfl
      · rw [if_neg hcb] at h
        exact absurd h (by simp)
    · rw [if_neg hplus] at h
      by_cases hminus : c = '-'
      · rw [if_pos hminus] at h
        by_cases hpre : checkPrerelease (rest.takeWhile (fun x => x ≠ '+')) = true
        · rw [if_pos hpre] at h
          have hsplit := List.takeWhile_append_dropWhile (fun x => x ≠ '+') rest
          cases hdrop : rest.dropWhile (fun x => x ≠ '+') with
          | nil =>
            rw [hdrop] at h
            simp only [Option.some.injEq] at h
            subst h
            refine ⟨rfl, rfl, rfl, ?_⟩
            simp only [renderTail, List.append_nil]
            rw [hminus]
            rw [hdrop, List.append_nil] at hsplit
            rw [hsplit]
          | cons c2 b =>
            rw [hdrop] at h
            replace h : (if c2 = '+' then
                (if checkBuild b = true then
                  some ⟨maj, mino, pat,
                    some (rest.takeWhile (fun x => x ≠ '+')), some b⟩
                else none)
              else none) = some i := h
            by_cases hc2 : c2 = '+'
            · rw [if_pos hc2] at h
              by_cases hcb2 : checkBuild b = true
              · rw [if_pos hcb2] at h
                simp only [Option.some.injEq] at h
                subst h
                refine ⟨rfl, rfl, rfl, ?_⟩
                simp only [renderTail]
                rw [hc2] at hdrop
                rw [hdrop] at hsplit
                rw [hminus, List.cons_append, hsplit]
              · rw [if_neg hcb2] at h
                exact absurd h (by simp)
            · rw [if_neg hc2] at h
              exact absurd h (by simp)
        · rw [if_neg hpre] at h
          exact absurd h (by simp)
      · rw [if_neg hminus] at h
        exact absurd h (by simp)

theorem parseVChars_sound (cs : List Char) (i : VersionInfo)
    (h : parseVChars cs = some i) :
    renderChars i = cs ∧ validNumId i.major ∧ validNumId i.minor := by
  unfold parseVChars at h
  cases h1 : parseNumId cs with
  | none => rw [h1] at h; exact absurd h (by simp)
  | some p1 =>
    rw [h1] at h
    obtain ⟨maj, r1⟩ := p1
    obtain ⟨hcs, hv1a, hv1b, hv1c⟩ := parseNumId_sound cs maj r1 h1
    cases r1 with
    | nil => exact absurd h (by simp)
    | cons c1 r1' =>
      simp only at h
      by_cases hc1 : c1 = '.'
      case neg => rw [if_neg hc1] at h; exact absurd h (by simp)
      rw [if_pos hc1] at h
      rw [hc1] at hcs
      cases h2 : parseNumId r1' with
      | none => rw [h2] at h; exact absurd h (by simp)
      | some p2 =>
        rw [h2] at h
        obtain ⟨mino, r2⟩ := p2
        obtain ⟨hr1, hv2a, hv2b, hv2c⟩ := parseNumId_sound r1' mino r2 h2
        cases r2 with
        | nil => exact absurd h (by simp)
        | cons c2 r2' =>
          simp only at h
          by_cases hc2 : c2 = '.'
          case neg => rw [if_neg hc2] at h; exact absurd h (by simp)
          rw [if_pos hc2] at h
          rw [hc2] at hr1
          cases h3 : parseNumId r2' with
          | none => rw [h3] at h; exact absurd h (by simp)
          | some p3 =>
            rw [h3] at h
            obtain ⟨pat, r3⟩ := p3
            obtain ⟨hr2, -, -, -⟩ := parseNumId_sound r2' pat r3 h3
            simp only at h
            obtain ⟨hmaj, hmino, hpat, htail⟩ := parseTail_sound maj mino pat r3 i h
            refine ⟨?_, ?_, ?_⟩
            · unfold renderChars
              rw [hmaj, hmino, hpat, htail, hr2, hr1, hcs]
            · rw [hmaj]; exact ⟨hv1a, hv1b, hv1c⟩
            · rw [hmino]; exact ⟨hv2a, hv2b, hv2c⟩

theorem parse_renders (s : String) (i : VersionInfo)
    (h : parse_version_info s = some i) : renderVersion i = s := by
  have hc : renderChars i = s.toList := (parseVChars_sound s.toList i h).1
  unfold renderVersion
  rw [hc]
  rfl

theorem normalize_version_eq_self (s w : String)
    (h : normalize_version s = some w) : w = s := by
  unfold normalize_version at h
  cases hp : parse_version_info s with
  | none => rw [hp] at h; exact absurd h (by simp)
  | some i =>
    rw [hp] at h
    simp at h
    rw [← h]
    exact parse_renders s i hp

/-! ### Completeness facts used for the `postrelease` version string -/

theorem digitChar_isDigit (m : Nat) : Char.isDigit (digitChar m) = true := by
  rcases m with _ | _ | _ | _ | _ | _ | _ | _ | _ | m
  · decide
  · decide
  · decide
  · decide
  · decide
  · decide
  · decide
  · decide
  · decide
  · show Char.isDigit '9' = true
    decide

theorem digitChar_ne_zero (m : Nat) (hm : 1 ≤ m) : ¬(digitChar m = '0') := by
  rcases m with _ | _ | _ | _ | _ | _ | _ | _ | _ | m
  · omega
  · decide
  · decide
  · decide
  · decide
  · decide
  · decide
  · decide
  · decide
  · show ¬(('9' : Char) = '0')
    decide

theorem natDigitsAux_ne_nil : ∀ (fuel n : Nat), n < fuel → natDigitsAux fuel n ≠ [] := by
  intro fuel
  induction fuel with
  | zero => intro n h; omega
  | succ f ih =>
    intro n h
    simp only [natDigitsAux]
    split_ifs with h10
    · simp
    · simp

theorem natDigitsAux_all_digit : ∀ (fuel n : Nat), n < fuel →
    ∀ c ∈ natDigitsAux fuel n, Char.isDigit c = true := by
  intro fuel
  induction fuel with
  | zero => intro n h; omega
  | succ f ih =>
    intro n h c hc
    simp only [natDigitsAux] at hc
    split_ifs at hc with h10
    · rw [List.mem_singleton] at hc
      subst hc
      exact digitChar_isDigit n
    · rcases List.mem_append.mp hc with h1 | h1
      · refine ih (n / 10) ?_ c h1
        have := Nat.div_lt_self (show 0 < n by omega) (show 1 < 10 by omega)
        omega
      · rw [List.mem_singleton] at h1
        subst h1
        exact digitChar_isDigit (n % 10)

theorem natDigitsAux_head_ne_zero : ∀ (fuel n : Nat), n < fuel → 1 ≤ n →
    ¬((natDigitsAux fuel n).head? = some '0') := by
  intro fuel
  induction fuel with
  | zero => intro n h; omega
  | succ f ih =>
    intro n h hn h0
    simp only [natDigitsAux] at h0
    split_ifs at h0 with h10
    · simp only [List.head?_cons, Option.some.injEq] at h0
      exact digitChar_ne_zero n hn h0
    · have hlt : n / 10 < f := by
        have := Nat.div_lt_self (show 0 < n by omega) (show 1 < 10 by omega)
        omega
      cases hnd : natDigitsAux f (n / 10) with
      | nil => exact natDigitsAux_ne_nil f (n / 10) hlt hnd
      | cons a t =>
        rw [hnd, List.cons_append, List.head?_cons, Option.some.injEq] at h0
        have hge : 1 ≤ n / 10 := by
          rw [Nat.one_le_div_iff (by omega)]
          omega
        exact ih (n / 10) hlt hge (by rw [hnd, List.head?_cons, h0])

theorem natDigits_ne_nil (n : Nat) : natDigits n ≠ [] :=
  natDigitsAux_ne_nil (n + 1) n (by omega)

theorem natDigits_all_digit (n : Nat) : ∀ c ∈ natDigits n, Char.isDigit c = true :=
  natDigitsAux_all_digit (n + 1) n (by omega)

theorem natDigits_head_ne_zero (n : Nat) :
    1 ≤ n → ¬((natDigits n).head? = some '0') :=
  natDigitsAux_head_ne_zero (n + 1) n (by omega)

theorem validNumId_natDigits (k : Nat) : validNumId (natDigits (k + 1)) := by
  refine ⟨natDigits_ne_nil _, natDigits_all_digit _, ?_⟩
  intro hcontra
  exact natDigits_head_ne_zero (k + 1) (by omega) hcontra.1

theorem takeWhile_append_all {α : Type} (p : α → Bool) :
    ∀ (a b : List α), (∀ x ∈ a, p x = true) →
      (a ++ b).takeWhile p = a ++ b.takeWhile p := by
  intro a
  induction a with
  | nil => intro b _; rfl
  | cons x t ih =>
    intro b h
    rw [List.cons_append, List.takeWhile_cons, h x (by simp), if_pos rfl,
      ih b (fun y hy => h y (by simp [hy])), List.cons_append]

theorem dropWhile_append_all {α : Type} (p : α → Bool) :
    ∀ (a b : List α), (∀ x ∈ a, p x = true) →
      (a ++ b).dropWhile p = b.dropWhile p := by
  intro a
  induction a with
  | nil => intro b _; rfl
  | cons x t ih =>
    intro b h
    rw [List.cons_append, List.dropWhile_cons, h x (by simp), if_pos rfl]
    exact ih b (fun y hy => h y (by simp [hy]))

theorem takeWhile_eq_nil_of_head {α : Type} (p : α → Bool) (b : List α)
    (hb : ∀ c t, b = c :: t → p c = false) : b.takeWhile p = [] := by
  cases b with
  | nil => rfl
  | cons c t =>
    rw [List.takeWhile_cons, hb c t rfl]
    simp

theorem dropWhile_eq_self_of_head {α : Type} (p : α → Bool) (b : List α)
    (hb : ∀ c t, b = c :: t → p c = false) : b.dropWhile p = b := by
  cases b with
  | nil => rfl
  | cons c t =>
    rw [List.dropWhile_cons, hb c t rfl]
    simp

theorem parseNumId_complete (ds rest : List Char)
    (hne : ds ≠ []) (hall : ∀ x ∈ ds, Char.isDigit x = true)
    (hzero : ¬(ds.head? = some '0' ∧ ds.length ≠ 1))
    (hrest : ∀ c t, rest = c :: t → Char.isDigit c = false) :
    parseNumId (ds ++ rest) = some (ds, rest) := by
  have ht : (ds ++ rest).takeWhile Char.isDigit = ds := by
    rw [takeWhile_append_all Char.isDigit ds rest hall,
      takeWhile_eq_nil_of_head Char.isDigit rest hrest, List.append_nil]
  have hd : (ds ++ rest).dropWhile Char.isDigit = rest := by
    rw [dropWhile_append_all Char.isDigit ds rest hall,
      dropWhile_eq_self_of_head Char.isDigit rest hrest]
  simp only [parseNumId, ht, hd]
  rw [if_neg (by simpa [List.isEmpty_iff] using hne), if_neg hzero]

theorem parseVChars_dev (maj mino nd : List Char)
    (hmaj : validNumId maj) (hmino : validNumId mino) (hnd : validNumId nd) :
    parseVChars (maj ++ '.' :: (mino ++ '.' :: (nd ++ '-' :: ['d', 'e', 'v']))) =
      some ⟨maj, mino, nd, some ['d', 'e', 'v'], none⟩ := by
  have hdot : ∀ (X : List Char) c t, ('.' :: X) = c :: t → Char.isDigit c = false := by
    intro X c t hct
    injection hct with hc ht
    rw [← hc]
    decide
  have hdash : ∀ (X : List Char) c t, ('-' :: X) = c :: t → Char.isDigit c = false := by
    intro X c t hct
    injection hct with hc ht
    rw [← hc]
    decide
  have h1 := parseNumId_complete maj ('.' :: (mino ++ '.' :: (nd ++ '-' :: ['d', 'e', 'v'])))
    hmaj.1 hmaj.2.1 hmaj.2.2 (hdot _)
  have h2 := parseNumId_complete mino ('.' :: (nd ++ '-' :: ['d', 'e', 'v']))
    hmino.1 hmino.2.1 hmino.2.2 (hdot _)
  have h3 := parseNumId_complete nd ('-' :: ['d', 'e', 'v'])
    hnd.1 hnd.2.1 hnd.2.2 (hdash _)
  simp only [parseVChars, h1, h2, h3]
  rfl

theorem bump_patch_sound (version b : String) (hb : bump_patch version = some b) :
    ∃ i, parse_version_info version = some i ∧
      b = String.mk (i.major ++ '.' ::
        (i.minor ++ '.' :: natDigits (digitsToNat i.patch + 1))) := by
  unfold bump_patch at hb
  cases hp : parse_version_info version with
  | none => rw [hp] at hb; exact absurd hb (by simp)
  | some i =>
    rw [hp] at hb
    simp at hb
    exact ⟨i, rfl, hb.symm⟩

theorem bump_dev_normalizes (version b : String)
    (hb : bump_patch version = some b) :
    normalize_version (b ++ "-dev") = some (b ++ "-dev") := by
  obtain ⟨i, hp, hbeq⟩ := bump_patch_sound version b hb
  obtain ⟨-, hmaj, hmino⟩ := parseVChars_sound version.toList i hp
  have hdev : (b ++ "-dev").toList =
      i.major ++ '.' :: (i.minor ++ '.' ::
        (natDigits (digitsToNat i.patch + 1) ++ '-' :: ['d', 'e', 'v'])) := by
    have hstep : (b ++ "-dev").toList = b.toList ++ "-dev".toList :=
      String.data_append b "-dev"
    rw [hstep, hbeq]
    have hlit : ("-dev" : String).toList = '-' :: ['d', 'e', 'v'] := rfl
    rw [hlit]
    show (i.major ++ '.' :: (i.minor ++ '.' :: natDigits (digitsToNat i.patch + 1)))
        ++ '-' :: ['d', 'e', 'v'] = _
    simp [List.append_assoc, List.cons_append]
  have hparse : parse_version_info (b ++ "-dev") =
      some ⟨i.major, i.minor, natDigits (digitsToNat i.patch + 1),
        some ['d', 'e', 'v'], none⟩ := by
    unfold parse_version_info
    rw [hdev]
    exact parseVChars_dev _ _ _ hmaj hmino (validNumId_natDigits _)
  have hrender := parse_renders (b ++ "-dev") _ hparse
  unfold normalize_version
  rw [hparse]
  simp [hrender]

theorem renderChars_ne_nil (i : VersionInfo) : renderChars i ≠ [] := by
  unfold renderChars
  cases h : i.major <;> simp

theorem normalize_toList_ne_nil (version v : String)
    (hv : normalize_version version = some v) : v.toList ≠ [] := by
  unfold normalize_version at hv
  cases hp : parse_version_info version with
  | none => rw [hp] at hv; simp at hv
  | some i =>
    rw [hp] at hv
    simp at hv
    subst hv
    exact renderChars_ne_nil i

/-! ### Claim theorems -/

/-- Claim C6: `run` on a command exiting 0 produces no console output and
returns normally; on a command exiting N ≠ 0 it prints the error label,
the captured stdout, a blank line, the captured stderr, and terminates
the process with exit code N. -/
theorem run_exit_behaviour (command : String) (result : CommandResult) :
    (result.exited = 0 → run command result = ⟨[], none⟩) ∧
    (result.exited ≠ 0 → run command result =
      ⟨["Error running " ++ command, result.stdout, "", result.stderr],
       some result.exited⟩) := by
  constructor
  · intro h; simp [run, h]
  · intro h; simp [run, h]

/-- Witness for C6 at exit code 0 and exit code 2. -/
theorem run_exit_behaviour_witness :
    run "npm install" ⟨0, "", ""⟩ = ⟨[], none⟩ ∧
    run "npm publish" ⟨2, "out", "err"⟩ =
      ⟨["Error running npm publish", "out", "", "err"], some 2⟩ :=
  ⟨(run_exit_behaviour "npm install" ⟨0, "", ""⟩).1 rfl,
   (run_exit_behaviour "npm publish" ⟨2, "out", "err"⟩).2 (by decide)⟩

/-- Claim C10: when notes collection yields no notes, the release task
reports the error and terminates with exit status 0 (the bare `exit()`),
and issues no build, publish, file-write or source-control command. -/
theorem release_no_notes_exit_zero (version : String) :
    release_after_notes version none =
      ([Action.errorMsg "No release notes: exiting"], some 0) ∧
    (∀ a ∈ (release_after_notes version none).1,
      (∀ w, a ≠ Action.buildPublish w) ∧ (∀ c, a ≠ Action.gitCommand c) ∧
      (∀ n c, a ≠ Action.writeFile n c)) := by
  refine ⟨rfl, ?_⟩
  intro a ha
  simp only [release_after_notes, List.mem_singleton] at ha
  subst ha
  refine ⟨?_, ?_, ?_⟩ <;> intros <;> simp

/-- Claim C2 fails on the code: `build_js` always finishes in `HERE` (the
directory of `tasks.py`), not in the caller's original working directory.
Here the process started in `/home/user` with `HERE = /app/project`, the
npm commands succeed, and the final working directory is not the original
one. -/
theorem build_js_cwd_counterexample :
    ¬ ((build_js "/app/project" "/home/user" ⟨0, "", ""⟩ ⟨0, "", ""⟩).finalCwd
        = "/home/user") := by
  decide

/-- Claim C2 (amended): after `build_js` finishes — whether the npm
commands succeed or fail — the working directory is `HERE` (which is also
`JS_DIR`); the caller's original working directory is re-established
exactly when it already was `HERE`. -/
theorem build_js_restores_here (here cwd0 : String) (inst pub : CommandResult) :
    (build_js here cwd0 inst pub).finalCwd = here ∧
    ((build_js here cwd0 inst pub).finalCwd = cwd0 ↔ cwd0 = here) := by
  have h : (build_js here cwd0 inst pub).finalCwd = here := by
    unfold build_js
    split
    · rfl
    · split
      · rfl
      · rfl
  refine ⟨h, ?_⟩
  rw [h]
  exact eq_comm

/-- Claim C3: on a malformed version string, normalization fails (the
`InvalidVersionError`, modelled as `none`), and each metadata writer
performs no write: all three return `none`, producing no output content. -/
theorem invalid_version_no_writes (version : String)
    (hv : normalize_version version = none)
    (initLines packageJson docsRequirements : List String) :
    set_pyversion version initLines = none ∧
    set_jsversion version packageJson = none ∧
    set_documentation_version version docsRequirements = none := by
  refine ⟨?_, ?_, ?_⟩
  · simp only [set_pyversion, hv]
  · simp only [set_jsversion, hv]
  · simp only [set_documentation_version, hv]

/-- Witness for C3 at the malformed string "banana". -/
theorem invalid_version_no_writes_witness :
    normalize_version "banana" = none ∧
    set_pyversion "banana" ["__version__ = \"0.1.0\"\n"] = none ∧
    set_jsversion "banana" ["  \"version\": \"0.1.0\",\n"] = none ∧
    set_documentation_version "banana" ["dash_bootstrap_components==0.1.0\n"] = none := by
  have h : normalize_version "banana" = none := by decide
  exact ⟨h,
    (invalid_version_no_writes "banana" h ["__version__ = \"0.1.0\"\n"]
      ["  \"version\": \"0.1.0\",\n"] ["dash_bootstrap_components==0.1.0\n"]).1,
    (invalid_version_no_writes "banana" h ["__version__ = \"0.1.0\"\n"]
      ["  \"version\": \"0.1.0\",\n"] ["dash_bootstrap_components==0.1.0\n"]).2.1,
    (invalid_version_no_writes "banana" h ["__version__ = \"0.1.0\"\n"]
      ["  \"version\": \"0.1.0\",\n"] ["dash_bootstrap_components==0.1.0\n"]).2.2⟩

/-- Claim C9: when no line matches the marker, `set_jsversion` and
`set_documentation_version` write back exactly the lines they read, and
`set_pyversion` raises (`none`) before writing anything. -/
theorem no_marker_behaviour (version v : String)
    (hv : normalize_version version = some v)
    (initLines packageJson docsRequirements : List String)
    (h1 : ∀ l ∈ initLines, pyMarker l = false)
    (h2 : ∀ l ∈ packageJson, jsMarker l = false)
    (h3 : ∀ l ∈ docsRequirements, docMarker l = false) :
    set_pyversion version initLines = none ∧
    set_jsversion version packageJson = some packageJson ∧
    set_documentation_version version docsRequirements = some docsRequirements := by
  refine ⟨?_, ?_, ?_⟩
  · simp [set_pyversion, hv, findIdx?_eq_none_of_all_false pyMarker initLines 0 h1]
  · simp [set_jsversion, hv, map_if_id jsMarker (jsVersionLine v) packageJson h2]
  · simp [set_documentation_version, hv,
      map_if_id docMarker (docVersionLine v) docsRequirements h3]

/-- Witness for C9 on marker-free contents. -/
theorem no_marker_behaviour_witness :
    set_pyversion "1.2.0" ["import os\n"] = none ∧
    set_jsversion "1.2.0" ["\x7b\n", "\x7d\n"] = some ["\x7b\n", "\x7d\n"] ∧
    set_documentation_version "1.2.0" ["dash==1.0.0\n"] = some ["dash==1.0.0\n"] := by
  have h := no_marker_behaviour "1.2.0" "1.2.0" (by decide)
    ["import os\n"] ["\x7b\n", "\x7d\n"] ["dash==1.0.0\n"]
    (by decide) (by decide) (by decide)
  exact h

/-- Claim C1: with exactly one marker line in the content, each metadata
writer replaces exactly that line with the rendered line embedding the
normalized version, and every other line is kept byte-identical. -/
theorem single_marker_frame (version v : String)
    (hv : normalize_version version = some v)
    (pre1 post1 : List String) (l1 : String)
    (h1 : pyMarker l1 = true)
    (h1a : ∀ x ∈ pre1, pyMarker x = false) (h1b : ∀ x ∈ post1, pyMarker x = false)
    (pre2 post2 : List String) (l2 : String)
    (h2 : jsMarker l2 = true)
    (h2a : ∀ x ∈ pre2, jsMarker x = false) (h2b : ∀ x ∈ post2, jsMarker x = false)
    (pre3 post3 : List String) (l3 : String)
    (h3 : docMarker l3 = true)
    (h3a : ∀ x ∈ pre3, docMarker x = false) (h3b : ∀ x ∈ post3, docMarker x = false) :
    set_pyversion version (pre1 ++ l1 :: post1) =
      some (pre1 ++ VERSION_TEMPLATE v :: post1, TEST_VERSION_TEMPLATE v) ∧
    set_jsversion version (pre2 ++ l2 :: post2) =
      some (pre2 ++ jsVersionLine v :: post2) ∧
    set_documentation_version version (pre3 ++ l3 :: post3) =
      some (pre3 ++ docVersionLine v :: post3) :=
  ⟨set_pyversion_frame version v hv pre1 post1 l1 h1 h1a,
   set_jsversion_frame version v hv pre2 post2 l2 h2 h2a h2b,
   set_documentation_version_frame version v hv pre3 post3 l3 h3 h3a h3b⟩

/-- Witness for C1 on concrete one-marker file contents. -/
theorem single_marker_frame_witness :
    set_pyversion "1.2.0" (["import os\n"] ++ "__version__ = \"0.1.0\"\n" :: ["x = 1\n"]) =
      some (["import os\n"] ++ VERSION_TEMPLATE "1.2.0" :: ["x = 1\n"],
        TEST_VERSION_TEMPLATE "1.2.0") ∧
    set_jsversion "1.2.0" (["\x7b\n"] ++ "  \"version\": \"0.1.0\",\n" :: ["\x7d\n"]) =
      some (["\x7b\n"] ++ jsVersionLine "1.2.0" :: ["\x7d\n"]) ∧
    set_documentation_version "1.2.0"
        (["dash==1.0.0\n"] ++ "dash_bootstrap_components==0.1.0\n" :: ["flask\n"]) =
      some (["dash==1.0.0\n"] ++ docVersionLine "1.2.0" :: ["flask\n"]) := by
  exact single_marker_frame "1.2.0" "1.2.0" (by decide)
    ["import os\n"] ["x = 1\n"] "__version__ = \"0.1.0\"\n"
    (by decide) (by decide) (by decide)
    ["\x7b\n"] ["\x7d\n"] "  \"version\": \"0.1.0\",\n"
    (by decide) (by decide) (by decide)
    ["dash==1.0.0\n"] ["flask\n"] "dash_bootstrap_components==0.1.0\n"
    (by decide) (by decide) (by decide)

/-- Claim C4: when the normalized version string does not occur in the
concatenation of the non-comment lines of the edited content,
`get_release_notes` returns the "no notes" result (`None`). -/
theorem release_notes_absent_none (version v : String) (editedLines : List String)
    (hv : normalize_version version = some v)
    (habs : strIn v.toList (changelogChars editedLines) = false) :
    get_release_notes version editedLines = some none := by
  simp only [get_release_notes, hv, habs, Bool.false_eq_true, if_false]

/-- Witness for C4: the user deleted the version heading. -/
theorem release_notes_absent_none_witness :
    get_release_notes "1.2.0" ["# Write the release notes here\n", "nothing\n"] =
      some none :=
  release_notes_absent_none "1.2.0" "1.2.0"
    ["# Write the release notes here\n", "nothing\n"] (by decide) (by decide)

/-- Claim C5: when the normalized version string occurs in the non-comment
content, `get_release_notes` returns a sequence of lines none of which
begins with `#` and whose final line is purely whitespace. -/
theorem release_notes_present_shape (version v : String) (editedLines : List String)
    (hv : normalize_version version = some v)
    (hocc : strIn v.toList (changelogChars editedLines) = true) :
    ∃ out, get_release_notes version editedLines = some (some out) ∧
      (∀ l ∈ out, pyStartsWith l "#" = false) ∧
      ∃ last, out.getLast? = some last ∧ pyIsSpace last = true := by
  have hmem : ∀ l ∈ non_commented editedLines, pyStartsWith l "#" = false := by
    intro l hl
    have := List.of_mem_filter hl
    simpa using this
  have hne : non_commented editedLines ≠ [] := by
    intro h0
    have hch : changelogChars editedLines = [] := by
      unfold changelogChars
      rw [h0]
      rfl
    rw [hch] at hocc
    have hvne := normalize_toList_ne_nil version v hv
    have hemp : strIn v.toList [] = v.toList.isEmpty := rfl
    rw [hemp, List.isEmpty_iff] at hocc
    exact hvne hocc
  obtain ⟨last, hlast⟩ : ∃ last, (non_commented editedLines).getLast? = some last := by
    cases h : (non_commented editedLines).getLast? with
    | none => exact absurd (List.getLast?_eq_none_iff.mp h) hne
    | some x => exact ⟨x, rfl⟩
  by_cases hsp : pyIsSpace last = true
  · refine ⟨non_commented editedLines, ?_, hmem, last, hlast, hsp⟩
    simp only [get_release_notes, hv, hocc, if_true, hlast, hsp, Bool.not_true,
      Bool.false_eq_true, if_false]
  · refine ⟨non_commented editedLines ++ ["\n"], ?_, ?_, "\n", ?_, ?_⟩
    · have hsp' : pyIsSpace last = false := by
        cases h : pyIsSpace last with
        | false => rfl
        | true => exact absurd h hsp
      simp only [get_release_notes, hv, hocc, if_true, hlast, hsp', Bool.not_false]
    · intro l hl
      rcases List.mem_append.mp hl with h | h
      · exact hmem l h
      · rw [List.mem_singleton.mp h]; decide
    · exact List.getLast?_concat _
    · decide

/-- Claim C7: normalization is idempotent — applying `normalize_version`
to the canonical string it produced yields that same canonical string. -/
theorem normalize_version_idempotent (v w : String)
    (h : normalize_version v = some w) :
    normalize_version w = some w := by
  have hw : w = v := normalize_version_eq_self v w h
  subst hw
  exact h

/-- Witness for C7 at a version with prerelease and build parts. -/
theorem normalize_version_idempotent_witness :
    normalize_version "1.2.3-rc.1+build.5" = some "1.2.3-rc.1+build.5" :=
  normalize_version_idempotent "1.2.3-rc.1+build.5" "1.2.3-rc.1+build.5" (by decide)

/-- Witness for C5: the user kept the version heading. -/
theorem release_notes_present_shape_witness :
    ∃ out, get_release_notes "1.2.0"
        ["# Write the release notes here\n", "Version 1.2.0\n", "=============\n"] =
      some (some out) ∧
      (∀ l ∈ out, pyStartsWith l "#" = false) ∧
      ∃ last, out.getLast? = some last ∧ pyIsSpace last = true :=
  release_notes_present_shape "1.2.0" "1.2.0"
    ["# Write the release notes here\n", "Version 1.2.0\n", "=============\n"]
    (by decide) (by decide)

/-- Claim C8: `postrelease` computes the next development version as
`bump_patch(version)` with the suffix `-dev` appended and writes exactly
that string into both package manifests (normalization leaves it
unchanged); in particular for version `1.2.0` both manifests end up
showing `1.2.1-dev`. -/
theorem postrelease_dev_version (version b : String)
    (hb : bump_patch version = some b)
    (pre1 post1 : List String) (l1 : String)
    (h1 : pyMarker l1 = true) (h1a : ∀ x ∈ pre1, pyMarker x = false)
    (pre2 post2 : List String) (l2 : String)
    (h2 : jsMarker l2 = true)
    (h2a : ∀ x ∈ pre2, jsMarker x = false) (h2b : ∀ x ∈ post2, jsMarker x = false) :
    postrelease_new_version version = some (b ++ "-dev") ∧
    postrelease_manifests version (pre1 ++ l1 :: post1) (pre2 ++ l2 :: post2) =
      some (pre1 ++ VERSION_TEMPLATE (b ++ "-dev") :: post1,
        pre2 ++ jsVersionLine (b ++ "-dev") :: post2) ∧
    postrelease_manifests "1.2.0"
        ["__version__ = \"1.2.0\"\n"] ["  \"version\": \"1.2.0\",\n"] =
      some (["__version__ = \"1.2.1-dev\"\n"], ["  \"version\": \"1.2.1-dev\",\n"]) := by
  have hnv : postrelease_new_version version = some (b ++ "-dev") := by
    unfold postrelease_new_version
    rw [hb]
    rfl
  have hnorm := bump_dev_normalizes version b hb
  refine ⟨hnv, ?_, by decide⟩
  simp only [postrelease_manifests, hnv,
    set_pyversion_frame (b ++ "-dev") (b ++ "-dev") hnorm pre1 post1 l1 h1 h1a,
    set_jsversion_frame (b ++ "-dev") (b ++ "-dev") hnorm pre2 post2 l2 h2 h2a h2b]

/-- Witness for C8 at version `1.2.0` on concrete manifests. -/
theorem postrelease_dev_version_witness :
    postrelease_new_version "1.2.0" = some ("1.2.1" ++ "-dev") ∧
    postrelease_manifests "1.2.0"
        (["# package init\n"] ++ "__version__ = \"1.2.0\"\n" :: [])
        (["\x7b\n"] ++ "  \"version\": \"1.2.0\",\n" :: ["\x7d\n"]) =
      some (["# package init\n"] ++ VERSION_TEMPLATE ("1.2.1" ++ "-dev") :: [],
        ["\x7b\n"] ++ jsVersionLine ("1.2.1" ++ "-dev") :: ["\x7d\n"]) ∧
    postrelease_manifests "1.2.0"
        ["__version__ = \"1.2.0\"\n"] ["  \"version\": \"1.2.0\",\n"] =
      some (["__version__ = \"1.2.1-dev\"\n"], ["  \"version\": \"1.2.1-dev\",\n"]) :=
  postrelease_dev_version "1.2.0" "1.2.1" (by decide)
    ["# package init\n"] [] "__version__ = \"1.2.0\"\n" (by decide) (by decide)
    ["\x7b\n"] ["\x7d\n"] "  \"version\": \"1.2.0\",\n" (by decide) (by decide) (by decide)

end Tasks
